import Mathlib

/-!
Shallow embedding of the aggregation core of src/market_pipeline.py.

Modelling conventions:
* Prices (Python floats) are modelled as rationals.
* Calendar dates are modelled by their proleptic Gregorian ordinal
  (the number returned by the Python method date.toordinal), so that
  date comparison and timedelta subtraction become integer arithmetic.
* The external FX rate service consumed by convert_to_usd is an oracle
  function passed explicitly; a result of none models the request
  raising an exception or returning no usable rate.
* The Python function filter_last_n_years reads the process clock
  (datetime.utcnow) at the start of each call.  The observed current
  date is therefore an explicit argument of the filter, and
  build_vehicle_market_json, which performs two filter calls, receives
  one observed date per call.
-/

/-- Mirrors the Python dataclass VehicleQuery. -/
structure VehicleQuery where
  name : String
  year : Int
  make : String
  model : String
  variant : Option String := none
deriving DecidableEq

/-- Mirrors the Python dataclass SaleRecord; price is a rational. -/
structure SaleRecord where
  sale_date : String
  price : ℚ
  currency : String
  source : String
  auction_house : Option String := none
  location : Option String := none
  url : Option String := none
deriving DecidableEq

/-- One entry of the enriched sales_5y list built by
build_vehicle_market_json: the original record fields plus the derived
price_usd, which is absent when conversion failed. -/
structure EnrichedSale where
  sale_date : String
  price : ℚ
  currency : String
  price_usd : Option ℚ
  source : String
  auction_house : Option String
  location : Option String
  url : Option String
deriving DecidableEq

/-- The stats block of the payload built by build_vehicle_market_json. -/
structure VehicleStats where
  avg_price_1y_usd : ℚ
  sample_size_1y : Nat
  last_sale_price_usd : Option ℚ
  last_sale_date : Option String
deriving DecidableEq

/-- The per-vehicle payload dictionary built by build_vehicle_market_json. -/
structure VehiclePayload where
  vehicle_name : String
  vehicle_year : Int
  stats : VehicleStats
  sales_5y : List EnrichedSale
deriving DecidableEq

/-- Numeric value of an ASCII digit character. -/
def digitVal (c : Char) : Nat := c.toNat - 48

/-- Split a character list at every dash, keeping empty groups, with
the same group structure as the Python regex fields of strptime. -/
def splitOnDash : List Char → List (List Char)
  | [] => [[]]
  | c :: cs =>
    let r := splitOnDash cs
    if c = '-' then [] :: r
    else
      match r with
      | [] => [[c]]
      | g :: gs => (c :: g) :: gs

/-- The year field of strptime with format Y-m-d: exactly four digits. -/
def yearOfStr? (s : List Char) : Option Nat :=
  match s with
  | [a, b, c, d] =>
    if a.isDigit ∧ b.isDigit ∧ c.isDigit ∧ d.isDigit then
      some (1000 * digitVal a + 100 * digitVal b + 10 * digitVal c + digitVal d)
    else none
  | _ => none

/-- The month field of strptime: the CPython regex alternatives
1[0-2], 0[1-9] and [1-9], applied to the whole field. -/
def monthOfStr? (s : List Char) : Option Nat :=
  match s with
  | ['1', c] => if '0' ≤ c ∧ c ≤ '2' then some (10 + digitVal c) else none
  | ['0', c] => if '1' ≤ c ∧ c ≤ '9' then some (digitVal c) else none
  | [c] => if '1' ≤ c ∧ c ≤ '9' then some (digitVal c) else none
  | _ => none

/-- The day field of strptime: the CPython regex alternatives
3[01], [12] digit, 0[1-9] and [1-9], applied to the whole field. -/
def dayOfStr? (s : List Char) : Option Nat :=
  match s with
  | ['3', c] => if c = '0' ∨ c = '1' then some (30 + digitVal c) else none
  | ['0', c] => if '1' ≤ c ∧ c ≤ '9' then some (digitVal c) else none
  | [c1, c2] => if ('1' ≤ c1 ∧ c1 ≤ '2') ∧ c2.isDigit then some (10 * digitVal c1 + digitVal c2) else none
  | [c] => if '1' ≤ c ∧ c ≤ '9' then some (digitVal c) else none
  | _ => none

/-- Gregorian leap-year rule, as used by the Python datetime module. -/
def isLeapYear (y : Nat) : Bool := y % 4 == 0 && (y % 100 != 0 || y % 400 == 0)

/-- Length of a month, as validated by the Python date constructor. -/
def daysInMonth (y m : Nat) : Nat :=
  if m = 2 then (if isLeapYear y then 29 else 28)
  else if m = 4 ∨ m = 6 ∨ m = 9 ∨ m = 11 then 30
  else 31

/-- Days in year y that precede the first day of month m. -/
def daysBeforeMonth (y m : Nat) : Nat :=
  (match m with
   | 1 => 0 | 2 => 31 | 3 => 59 | 4 => 90 | 5 => 120 | 6 => 151
   | 7 => 181 | 8 => 212 | 9 => 243 | 10 => 273 | 11 => 304 | _ => 334) +
  (if 3 ≤ m ∧ isLeapYear y then 1 else 0)

/-- Proleptic Gregorian ordinal of a valid calendar date, equal to the
Python expression date(y, m, d).toordinal(); date(1, 1, 1) maps to 1. -/
def toOrdinal (y m d : Nat) : Nat :=
  365 * (y - 1) + (y - 1) / 4 + (y - 1) / 400 - (y - 1) / 100 + daysBeforeMonth y m + d

/-- Mirrors the Python helper that parses a sale_date string with
datetime.strptime using format Y-m-d and returns the calendar date;
none models the ValueError raised on any string the format does not
accept (wrong shape, month outside 1 to 12, day outside the month,
year 0000).  A successful parse is returned as the date ordinal. -/
def parse_date_iso (s : String) : Option Nat :=
  match splitOnDash s.data with
  | [ys, ms, ds] =>
    match yearOfStr? ys, monthOfStr? ms, dayOfStr? ds with
    | some y, some m, some d =>
      if 1 ≤ y ∧ d ≤ daysInMonth y m then some (toOrdinal y m d) else none
    | _, _, _ => none
  | _ => none

/-- Mirrors filter_last_n_years: keep the records whose sale_date
parses, is not after the observed current date, and is not older than
today minus 365 times years days.  The date observed from the clock by
this call is the explicit argument today. -/
def filter_last_n_years (sales : List SaleRecord) (years : Nat) (today : Nat) : List SaleRecord :=
  sales.filter fun s =>
    match parse_date_iso s.sale_date with
    | none => false
    | some sd => decide (sd ≤ today) && decide ((today : Int) - 365 * (years : Int) ≤ (sd : Int))

/-- Models the Python string method upper on the ASCII range of
currency codes. -/
def pyUpper (s : String) : String := String.mk (s.data.map Char.toUpper)

/-- Models the Python builtin round(x, 2) on float prices: round to the
nearest multiple of one hundredth, ties to the even multiple. -/
def pyRound2 (q : ℚ) : ℚ :=
  let x : ℚ := 100 * q
  let f : Int := x.floor
  let r : ℚ := x - (f : ℚ)
  let n : Int :=
    if r < 1 / 2 then f
    else if 1 / 2 < r then f + 1
    else if f % 2 = 0 then f else f + 1
  (n : ℚ) / 100

/-- The equality key used by dedupe_sales. -/
abbrev DedupKey := String × String × String × ℚ × String

/-- The tuple key built inside the dedupe_sales loop:
(source, url or empty string, sale_date, price rounded to 2 decimals,
currency upper-cased). -/
def dedupeKey (s : SaleRecord) : DedupKey :=
  (s.source, s.url.getD "", s.sale_date, pyRound2 s.price, pyUpper s.currency)

/-- The loop of dedupe_sales; the list seen models the Python set of
keys already encountered (membership is the only operation used). -/
def dedupeGo (seen : List DedupKey) : List SaleRecord → List SaleRecord
  | [] => []
  | s :: rest =>
    if dedupeKey s ∈ seen then dedupeGo seen rest
    else s :: dedupeGo (dedupeKey s :: seen) rest

/-- Mirrors dedupe_sales: remove records whose key was already seen,
keeping the first occurrence of each key. -/
def dedupe_sales (sales : List SaleRecord) : List SaleRecord := dedupeGo [] sales

/-- Specification-side deduplicator, written from the spec wording:
keep every first occurrence of a key and drop all later records with
the same key, preserving relative order.  Used to state the contract
claims about dedupe_sales. -/
def specDedupe : List SaleRecord → List SaleRecord
  | [] => []
  | x :: xs => x :: specDedupe (xs.filter fun y => decide (dedupeKey y ≠ dedupeKey x))
termination_by l => l.length
decreasing_by
  simp only [List.length_cons]
  exact Nat.lt_succ_of_le (List.length_filter_le _ _)

/-- Mirrors convert_to_usd: upper-case the source currency, return the
amount unchanged when it is USD, otherwise consult the external rate
service fx.  A none result models the exception raised on any remote
failure. -/
def convert_to_usd (fx : String → ℚ → Option ℚ) (amount : ℚ) (from_ccy : String) : Option ℚ :=
  let c := pyUpper from_ccy
  if c = "USD" then some amount else fx c amount

/-- The enrichment step of build_vehicle_market_json: copy every field
of the record and attach price_usd, absent when conversion failed. -/
def enrichSale (fx : String → ℚ → Option ℚ) (s : SaleRecord) : EnrichedSale :=
  { sale_date := s.sale_date
    price := s.price
    currency := s.currency
    price_usd := convert_to_usd fx s.price s.currency
    source := s.source
    auction_house := s.auction_house
    location := s.location
    url := s.url }

/-- Insertion step of a stable descending sort on the sale_date string:
the inserted element goes before the first element whose date is not
strictly greater, so an element never jumps over an earlier one with an
equal date. -/
def sortedInsertDesc (e : EnrichedSale) : List EnrichedSale → List EnrichedSale
  | [] => [e]
  | y :: ys => if e.sale_date < y.sale_date then y :: sortedInsertDesc e ys else e :: y :: ys

/-- Stable sort by descending sale_date string.  This models the Python
expression sorted(enriched_5y, key on sale_date, reverse true), whose
output is exactly characterised by being a stably ordered descending
rearrangement. -/
def sortDescBySaleDate : List EnrichedSale → List EnrichedSale
  | [] => []
  | x :: xs => sortedInsertDesc x (sortDescBySaleDate xs)

/-- Mirrors build_vehicle_market_json.  The two clock reads performed
by its two filter_last_n_years calls appear as the two arguments
today_5y and today_1y, in the order the source performs them. -/
def build_vehicle_market_json (fx : String → ℚ → Option ℚ) (vehicle : VehicleQuery)
    (all_sales : List SaleRecord) (today_5y today_1y : Nat) : VehiclePayload :=
  let sales_5y := filter_last_n_years all_sales 5 today_5y
  let enriched_5y := sales_5y.map (enrichSale fx)
  let sales_1y := filter_last_n_years all_sales 1 today_1y
  let prices_1y_usd := sales_1y.filterMap fun s => convert_to_usd fx s.price s.currency
  let avg_price_1y_usd : ℚ :=
    if prices_1y_usd.isEmpty then 0 else prices_1y_usd.sum / (prices_1y_usd.length : ℚ)
  let sample_size_1y : Nat := if prices_1y_usd.isEmpty then 0 else prices_1y_usd.length
  let last_sale : Option EnrichedSale := (sortDescBySaleDate enriched_5y).head?
  { vehicle_name := vehicle.name
    vehicle_year := vehicle.year
    stats :=
      { avg_price_1y_usd := avg_price_1y_usd
        sample_size_1y := sample_size_1y
        last_sale_price_usd := last_sale.bind fun e => e.price_usd
        last_sale_date := last_sale.map fun e => e.sale_date }
    sales_5y := enriched_5y }

/-- Forget the derived price_usd field of an enriched sale, recovering
the underlying record. -/
def stripEnriched (e : EnrichedSale) : SaleRecord :=
  { sale_date := e.sale_date
    price := e.price
    currency := e.currency
    source := e.source
    auction_house := e.auction_house
    location := e.location
    url := e.url }

/-- FX oracle that converts every currency at rate one; used as a
concrete run of the pipeline in witnesses. -/
def fxId : String → ℚ → Option ℚ := fun _ a => some a

/-- FX oracle on which every remote lookup fails; used as a concrete
run of the pipeline in witnesses. -/
def fxNone : String → ℚ → Option ℚ := fun _ _ => none

/-- Concrete vehicle used in witnesses. -/
def vq : VehicleQuery := { name := "Ferrari F50", year := 1995, make := "Ferrari", model := "F50" }

/-- Ordinal of the current date 2024-01-01 used in witnesses. -/
def day0 : Nat := toOrdinal 2024 1 1

/-- Concrete record inside both the 1-year and 5-year windows of day0. -/
def rW : SaleRecord := { sale_date := "2023-10-01", price := 100, currency := "USD", source := "bring_a_trailer" }

/-- Concrete record with an unparseable sale_date (month 13). -/
def rBad : SaleRecord := { sale_date := "2024-13-01", price := 5, currency := "USD", source := "classic_com" }

/-- Concrete record dated strictly after day0. -/
def rFut : SaleRecord := { sale_date := "2025-06-01", price := 7, currency := "USD", source := "classic_com" }

/-- Concrete euro record whose conversion fails under fxNone. -/
def rEur : SaleRecord := { sale_date := "2023-11-15", price := 50000, currency := "EUR", source := "collecting_cars" }

/-- Records carrying the three dates of the last-sale example in the
specification. -/
def s31 : SaleRecord := { sale_date := "2021-01-01", price := 1, currency := "USD", source := "classic_com" }

/-- Second record of the last-sale example. -/
def s32 : SaleRecord := { sale_date := "2023-06-15", price := 2, currency := "USD", source := "classic_com" }

/-- Third record of the last-sale example. -/
def s33 : SaleRecord := { sale_date := "2022-09-09", price := 3, currency := "USD", source := "classic_com" }

/-- Duplicate pair of the dedup scenario in the specification. -/
def rDup : SaleRecord := { sale_date := "2024-01-01", price := 100000, currency := "usd", source := "A", url := some "http://x/1" }

/-- Same sale as rDup with the currency spelled upper-case: the dedup
key coincides. -/
def rDup2 : SaleRecord := { sale_date := "2024-01-01", price := 100000, currency := "USD", source := "A", url := some "http://x/1" }

/-- Record dated 2024-03-11, one day after the first clock read of the
clock-skew run. -/
def rRoll : SaleRecord := { sale_date := "2024-03-11", price := 100, currency := "USD", source := "bring_a_trailer" }

/-- Claim C2: window monotonicity.  For every fixed current date, every
record returned by the 1-year filter is also returned by the 5-year
filter. -/
theorem filter_window_mono (today : Nat) (S : List SaleRecord) (r : SaleRecord)
    (h : r ∈ filter_last_n_years S 1 today) : r ∈ filter_last_n_years S 5 today := by
  unfold filter_last_n_years at h ⊢
  rw [List.mem_filter] at h ⊢
  refine ⟨h.1, ?_⟩
  obtain ⟨-, h2⟩ := h
  cases hp : parse_date_iso r.sale_date with
  | none => rw [hp] at h2; simp at h2
  | some sd =>
    rw [hp] at h2
    simp only [Bool.and_eq_true, decide_eq_true_eq] at h2 ⊢
    exact ⟨h2.1, by omega⟩

/-- Witness for C2 at a concrete input: a record kept by the 1-year
filter is kept by the 5-year filter. -/
theorem filter_window_mono_witness :
    rW ∈ filter_last_n_years [rW] 1 day0 ∧ rW ∈ filter_last_n_years [rW] 5 day0 :=
  ⟨by decide, filter_window_mono day0 [rW] rW (by decide)⟩

/-- Claim C5: future-date exclusion.  A record whose sale_date does not
parse never appears in the filter output (it is silently dropped, the
filter being total), and a record whose sale_date parses to a date
strictly after the observed current date never appears in the filter
output, for every window size. -/
theorem future_unparseable_excluded (S : List SaleRecord) (years today : Nat) (s : SaleRecord) :
    (parse_date_iso s.sale_date = none → s ∉ filter_last_n_years S years today) ∧
    (∀ d, parse_date_iso s.sale_date = some d → today < d → s ∉ filter_last_n_years S years today) := by
  constructor
  · intro hp hmem
    unfold filter_last_n_years at hmem
    rw [List.mem_filter] at hmem
    obtain ⟨-, hcond⟩ := hmem
    rw [hp] at hcond
    simp at hcond
  · intro d hp hd hmem
    unfold filter_last_n_years at hmem
    rw [List.mem_filter] at hmem
    obtain ⟨-, hcond⟩ := hmem
    rw [hp] at hcond
    simp only [Bool.and_eq_true, decide_eq_true_eq] at hcond
    omega

/-- Witness for C5 at concrete inputs: an unparseable record and a
future-dated record are both excluded from a concrete filter run. -/
theorem future_unparseable_excluded_witness :
    rBad ∉ filter_last_n_years [rBad, rFut] 5 day0 ∧
    rFut ∉ filter_last_n_years [rBad, rFut] 5 day0 :=
  ⟨(future_unparseable_excluded [rBad, rFut] 5 day0 rBad).1 (by decide),
   (future_unparseable_excluded [rBad, rFut] 5 day0 rFut).2 (toOrdinal 2025 6 1) (by decide) (by decide)⟩

/-- Claim C7: conversion identity.  For every amount and every currency
code that upper-cases to USD, convert_to_usd returns exactly the amount,
and its result does not depend on the external rate service, which
models that no service call is made. -/
theorem convert_identity_usd (fx : String → ℚ → Option ℚ) (amount : ℚ) (code : String)
    (h : pyUpper code = "USD") :
    convert_to_usd fx amount code = some amount ∧
    ∀ fx2 : String → ℚ → Option ℚ, convert_to_usd fx amount code = convert_to_usd fx2 amount code := by
  constructor
  · simp [convert_to_usd, h]
  · intro fx2
    simp [convert_to_usd, h]

/-- Witness for C7 at a concrete input: converting with a lower-case
code usd is the identity even on the oracle that always fails. -/
theorem convert_identity_usd_witness :
    pyUpper "usd" = "USD" ∧ convert_to_usd fxNone (5 : ℚ) "usd" = some 5 :=
  ⟨by decide, (convert_identity_usd fxNone 5 "usd" (by decide)).1⟩

/-- An if on emptiness returning 0 or the length collapses to the
length. -/
theorem if_isEmpty_length (L : List ℚ) : (if L.isEmpty then 0 else L.length) = L.length := by
  cases L <;> simp

/-- The sales_5y list of the payload is, definitionally, the 5-year
filter output enriched in place. -/
theorem build_sales_5y_eq (fx : String → ℚ → Option ℚ) (v : VehicleQuery)
    (all : List SaleRecord) (t5 t1 : Nat) :
    (build_vehicle_market_json fx v all t5 t1).sales_5y
      = (filter_last_n_years all 5 t5).map (enrichSale fx) := rfl

/-- The published sample size equals the number of successful 1-year
conversions. -/
theorem build_sample_size_eq (fx : String → ℚ → Option ℚ) (v : VehicleQuery)
    (all : List SaleRecord) (t5 t1 : Nat) :
    (build_vehicle_market_json fx v all t5 t1).stats.sample_size_1y
      = ((filter_last_n_years all 1 t1).filterMap fun s => convert_to_usd fx s.price s.currency).length :=
  if_isEmpty_length _

/-- The published average, definitionally: zero on an empty success
list, otherwise the arithmetic mean of the successes. -/
theorem build_avg_eq (fx : String → ℚ → Option ℚ) (v : VehicleQuery)
    (all : List SaleRecord) (t5 t1 : Nat) :
    (build_vehicle_market_json fx v all t5 t1).stats.avg_price_1y_usd
      = (if ((filter_last_n_years all 1 t1).filterMap fun s => convert_to_usd fx s.price s.currency).isEmpty
         then 0
         else ((filter_last_n_years all 1 t1).filterMap fun s => convert_to_usd fx s.price s.currency).sum /
              ((((filter_last_n_years all 1 t1).filterMap fun s => convert_to_usd fx s.price s.currency).length : ℚ))) := rfl

/-- The published last sale date, definitionally: head of the stably
descending-sorted enriched 5-year list. -/
theorem build_last_date_eq (fx : String → ℚ → Option ℚ) (v : VehicleQuery)
    (all : List SaleRecord) (t5 t1 : Nat) :
    (build_vehicle_market_json fx v all t5 t1).stats.last_sale_date
      = ((sortDescBySaleDate ((filter_last_n_years all 5 t5).map (enrichSale fx))).head?).map
          (fun e => e.sale_date) := rfl

/-- The published last sale price, definitionally: the possibly absent
converted price of the head of the sorted enriched 5-year list. -/
theorem build_last_price_eq (fx : String → ℚ → Option ℚ) (v : VehicleQuery)
    (all : List SaleRecord) (t5 t1 : Nat) :
    (build_vehicle_market_json fx v all t5 t1).stats.last_sale_price_usd
      = ((sortDescBySaleDate ((filter_last_n_years all 5 t5).map (enrichSale fx))).head?).bind
          (fun e => e.price_usd) := rfl

/-- Claim C10: the published sales_5y preserves the relative order of
the 5-year-filter output, which is itself a subsequence of the arrival
order, and every published record carries the original fields of its
source observation unmodified; the descending sort used for the last
sale never reorders sales_5y. -/
theorem sales_5y_frame (fx : String → ℚ → Option ℚ) (v : VehicleQuery)
    (all : List SaleRecord) (t5 t1 : Nat) :
    ((build_vehicle_market_json fx v all t5 t1).sales_5y).map stripEnriched
        = filter_last_n_years all 5 t5 ∧
    List.Sublist (((build_vehicle_market_json fx v all t5 t1).sales_5y).map stripEnriched) all ∧
    ∀ s : SaleRecord, stripEnriched (enrichSale fx s) = s := by
  have hstrip : ∀ s : SaleRecord, stripEnriched (enrichSale fx s) = s := fun s => rfl
  have h1 : ((build_vehicle_market_json fx v all t5 t1).sales_5y).map stripEnriched
      = filter_last_n_years all 5 t5 := by
    rw [build_sales_5y_eq, List.map_map]
    have hcomp : stripEnriched ∘ enrichSale fx = id := funext hstrip
    rw [hcomp, List.map_id]
  refine ⟨h1, ?_, hstrip⟩
  rw [h1]
  unfold filter_last_n_years
  exact List.filter_sublist _

/-- Claim C8 concerns the clock capture: the source re-reads
datetime.utcnow inside every filter_last_n_years call instead of
capturing it once, so the 5-year and the 1-year window of one run can
observe different current dates.  On the concrete run below the clock
advances from 2024-03-10 to 2024-03-11 between the two reads and the
sale dated 2024-03-11 is dropped from sales_5y as a future date yet
counted by the 1-year statistics, an output no single-capture run can
produce: the payload differs from the runs that reuse either observed
date for both windows. -/
theorem clock_read_per_filter_call :
    (build_vehicle_market_json fxId vq [rRoll] (toOrdinal 2024 3 10) (toOrdinal 2024 3 11)).sales_5y = [] ∧
    (build_vehicle_market_json fxId vq [rRoll] (toOrdinal 2024 3 10) (toOrdinal 2024 3 11)).stats.sample_size_1y = 1 ∧
    (build_vehicle_market_json fxId vq [rRoll] (toOrdinal 2024 3 10) (toOrdinal 2024 3 11)).stats.last_sale_date = none ∧
    build_vehicle_market_json fxId vq [rRoll] (toOrdinal 2024 3 10) (toOrdinal 2024 3 11) ≠
      build_vehicle_market_json fxId vq [rRoll] (toOrdinal 2024 3 10) (toOrdinal 2024 3 10) ∧
    build_vehicle_market_json fxId vq [rRoll] (toOrdinal 2024 3 10) (toOrdinal 2024 3 11) ≠
      build_vehicle_market_json fxId vq [rRoll] (toOrdinal 2024 3 11) (toOrdinal 2024 3 11) := by
  refine ⟨by decide, by decide, by decide, ?_, ?_⟩
  · intro h
    have h2 := congrArg (fun p => p.stats.sample_size_1y) h
    exact absurd h2 (by decide)
  · intro h
    have h2 := congrArg (fun p => p.sales_5y) h
    exact absurd h2 (by decide)

/-- Two successive filters collapse to one filter on the conjunction. -/
theorem filter_filter_and {α : Type} (p q : α → Bool) (l : List α) :
    (l.filter p).filter q = l.filter fun a => p a && q a := by
  induction l with
  | nil => rfl
  | cons a l ih =>
    by_cases hp : p a <;> by_cases hq : q a <;>
      simp [List.filter_cons, hp, hq, ih]

/-- Filters with pointwise equal predicates agree. -/
theorem filter_congr_fun {α : Type} (p q : α → Bool) (l : List α)
    (h : ∀ a ∈ l, p a = q a) : l.filter p = l.filter q := by
  induction l with
  | nil => rfl
  | cons a l ih =>
    rw [List.filter_cons, List.filter_cons, h a (List.mem_cons_self a l),
      ih fun b hb => h b (List.mem_cons_of_mem a hb)]

/-- Filtering twice with one predicate is filtering once. -/
theorem filter_self_idem {α : Type} (p : α → Bool) (l : List α) :
    (l.filter p).filter p = l.filter p := by
  rw [filter_filter_and]
  exact filter_congr_fun _ _ l fun a _ => Bool.and_self _

/-- Filtering with a constantly true predicate keeps the list. -/
theorem filter_true_eq {α : Type} (l : List α) : (l.filter fun _ => true) = l := by
  induction l with
  | nil => rfl
  | cons a l ih => simp [List.filter_cons, ih]

/-- The dedupe_sales loop with an arbitrary seen set computes the
specification deduplicator of the records whose key is unseen. -/
theorem dedupeGo_eq_specDedupe (l : List SaleRecord) :
    ∀ seen : List DedupKey,
      dedupeGo seen l = specDedupe (l.filter fun s => decide (dedupeKey s ∉ seen)) := by
  induction l with
  | nil => intro seen; simp [dedupeGo, specDedupe]
  | cons s rest ih =>
    intro seen
    by_cases hk : dedupeKey s ∈ seen
    · have h1 : dedupeGo seen (s :: rest) = dedupeGo seen rest := by
        simp [dedupeGo, hk]
      have h2 : ((s :: rest).filter fun x => decide (dedupeKey x ∉ seen))
          = rest.filter fun x => decide (dedupeKey x ∉ seen) := by
        simp [List.filter_cons, hk]
      rw [h1, h2, ih]
    · have h1 : dedupeGo seen (s :: rest) = s :: dedupeGo (dedupeKey s :: seen) rest := by
        simp [dedupeGo, hk]
      have h2 : ((s :: rest).filter fun x => decide (dedupeKey x ∉ seen))
          = s :: rest.filter fun x => decide (dedupeKey x ∉ seen) := by
        simp [List.filter_cons, hk]
      rw [h1, h2, specDedupe, ih (dedupeKey s :: seen)]
      congr 1
      rw [filter_filter_and]
      congr 1
      apply filter_congr_fun
      intro a _
      by_cases h1y : dedupeKey a ∈ seen <;> by_cases h2y : dedupeKey a = dedupeKey s <;>
        simp [h1y, h2y]

/-- dedupe_sales computes exactly the specification deduplicator. -/
theorem dedupe_sales_eq_specDedupe (l : List SaleRecord) : dedupe_sales l = specDedupe l := by
  rw [dedupe_sales, dedupeGo_eq_specDedupe]
  congr 1
  have h : ∀ s : SaleRecord, (decide (dedupeKey s ∉ ([] : List DedupKey))) = true := by
    intro s; simp
  rw [filter_congr_fun _ _ l fun a _ => h a, filter_true_eq]

/-- Filtering by key disequality commutes with the specification
deduplicator. -/
theorem specDedupe_filter (k : DedupKey) (l : List SaleRecord) :
    ((specDedupe l).filter fun y => decide (dedupeKey y ≠ k))
      = specDedupe (l.filter fun y => decide (dedupeKey y ≠ k)) := by
  induction l using specDedupe.induct with
  | case1 => simp [specDedupe]
  | case2 x xs ih =>
    rw [specDedupe, List.filter_cons, List.filter_cons]
    by_cases hx : dedupeKey x = k
    · have hpx : (decide (dedupeKey x ≠ k)) = false := by simp [hx]
      rw [hpx]
      simp only [Bool.false_eq_true, if_false]
      have hpred : (fun y => decide (dedupeKey y ≠ dedupeKey x)) = fun y => decide (dedupeKey y ≠ k) := by
        rw [hx]
      rw [hpred] at ih ⊢
      rw [ih, filter_self_idem]
    · have hpx : (decide (dedupeKey x ≠ k)) = true := by simp [hx]
      rw [hpx]
      simp only [if_true]
      rw [specDedupe]
      congr 1
      rw [ih, filter_filter_and, filter_filter_and]
      congr 1
      exact filter_congr_fun _ _ xs fun a _ => Bool.and_comm _ _

/-- The specification deduplicator is idempotent. -/
theorem specDedupe_idem (l : List SaleRecord) : specDedupe (specDedupe l) = specDedupe l := by
  induction l using specDedupe.induct with
  | case1 => simp [specDedupe]
  | case2 x xs ih =>
    rw [specDedupe]
    rw [specDedupe]
    congr 1
    rw [specDedupe_filter, filter_self_idem]
    exact ih

/-- The specification deduplicator returns a subsequence of its
input. -/
theorem specDedupe_sublist (l : List SaleRecord) : List.Sublist (specDedupe l) l := by
  induction l using specDedupe.induct with
  | case1 => rw [specDedupe]
  | case2 x xs ih =>
    rw [specDedupe]
    exact List.Sublist.cons₂ x (ih.trans (List.filter_sublist _))

/-- The keys of the specification deduplicator output are pairwise
distinct. -/
theorem specDedupe_keys_nodup (l : List SaleRecord) : ((specDedupe l).map dedupeKey).Nodup := by
  induction l using specDedupe.induct with
  | case1 => rw [specDedupe]; simp
  | case2 x xs ih =>
    rw [specDedupe, List.map_cons, List.nodup_cons]
    refine ⟨?_, ih⟩
    intro hmem
    rw [List.mem_map] at hmem
    obtain ⟨t, ht, hkey⟩ := hmem
    have ht2 : t ∈ xs.filter fun y => decide (dedupeKey y ≠ dedupeKey x) :=
      (specDedupe_sublist _).subset ht
    rw [List.mem_filter] at ht2
    have hne := ht2.2
    simp only [decide_eq_true_eq] at hne
    exact hne hkey

/-- Every key of the input is represented in the specification
deduplicator output. -/
theorem specDedupe_covers (l : List SaleRecord) :
    ∀ s ∈ l, ∃ t ∈ specDedupe l, dedupeKey t = dedupeKey s := by
  induction l using specDedupe.induct with
  | case1 => intro s hs; simp at hs
  | case2 x xs ih =>
    intro s hs
    rcases List.mem_cons.mp hs with rfl | hs2
    · refine ⟨s, ?_, rfl⟩
      rw [specDedupe]
      exact List.mem_cons_self _ _
    · by_cases hk : dedupeKey s = dedupeKey x
      · refine ⟨x, ?_, hk.symm⟩
        rw [specDedupe]
        exact List.mem_cons_self _ _
      · have hsf : s ∈ xs.filter fun y => decide (dedupeKey y ≠ dedupeKey x) := by
          rw [List.mem_filter]
          exact ⟨hs2, by simp [hk]⟩
        obtain ⟨t, ht, hkey⟩ := ih s hsf
        refine ⟨t, ?_, hkey⟩
        rw [specDedupe]
        exact List.mem_cons_of_mem _ ht

/-- Claim C1: deduplication is idempotent: for every list of sale
observations, dedupe_sales applied twice equals dedupe_sales applied
once. -/
theorem dedupe_sales_idempotent (S : List SaleRecord) :
    dedupe_sales (dedupe_sales S) = dedupe_sales S := by
  simp only [dedupe_sales_eq_specDedupe]
  exact specDedupe_idem S

/-- Claim C9: the deduplicator contract.  dedupe_sales equals the
specification deduplicator that keeps exactly the first occurrence of
each distinct key; it is an order-preserving subsequence of the input;
its keys are pairwise distinct; every input key is still represented;
and two observations can only share a key when they come from the same
source, so different sources are never merged. -/
theorem dedupe_contract (l : List SaleRecord) :
    dedupe_sales l = specDedupe l ∧
    List.Sublist (dedupe_sales l) l ∧
    ((dedupe_sales l).map dedupeKey).Nodup ∧
    (∀ s ∈ l, ∃ t ∈ dedupe_sales l, dedupeKey t = dedupeKey s) ∧
    (∀ s t : SaleRecord, dedupeKey s = dedupeKey t → s.source = t.source) := by
  refine ⟨dedupe_sales_eq_specDedupe l, ?_, ?_, ?_, ?_⟩
  · rw [dedupe_sales_eq_specDedupe]
    exact specDedupe_sublist l
  · rw [dedupe_sales_eq_specDedupe]
    exact specDedupe_keys_nodup l
  · rw [dedupe_sales_eq_specDedupe]
    exact specDedupe_covers l
  · intro s t h
    exact congrArg Prod.fst h

/-- Witness for C9 at the duplicate-pair scenario of the
specification: the duplicate is still represented after dedup. -/
theorem dedupe_contract_witness :
    rDup2 ∈ [rDup, rDup2] ∧ ∃ t ∈ dedupe_sales [rDup, rDup2], dedupeKey t = dedupeKey rDup2 :=
  ⟨by decide, (dedupe_contract [rDup, rDup2]).2.2.2.1 rDup2 (by decide)⟩

/-- The length of a filterMap output counts the inputs on which the
function succeeds. -/
theorem length_filterMap_eq_countP {α β : Type} (f : α → Option β) (l : List α) :
    (l.filterMap f).length = l.countP fun a => (f a).isSome := by
  induction l with
  | nil => rfl
  | cons a l ih =>
    rw [List.filterMap_cons]
    cases hfa : f a with
    | none => simp [List.countP_cons, hfa, ih]
    | some b => simp [List.countP_cons, hfa, ih]

/-- Claim C6: sample-size bound.  The published sample_size_1y counts
exactly the 1-year-window observations whose conversion succeeded, so
it is at most the size of the 1-year window, with equality exactly when
every 1-year conversion succeeds. -/
theorem sample_size_bound (fx : String → ℚ → Option ℚ) (v : VehicleQuery)
    (all : List SaleRecord) (t5 t1 : Nat) :
    (build_vehicle_market_json fx v all t5 t1).stats.sample_size_1y
        = (filter_last_n_years all 1 t1).countP
            (fun s => (convert_to_usd fx s.price s.currency).isSome) ∧
    (build_vehicle_market_json fx v all t5 t1).stats.sample_size_1y
        ≤ (filter_last_n_years all 1 t1).length ∧
    ((build_vehicle_market_json fx v all t5 t1).stats.sample_size_1y
          = (filter_last_n_years all 1 t1).length ↔
      ∀ s ∈ filter_last_n_years all 1 t1,
        (convert_to_usd fx s.price s.currency).isSome = true) := by
  have h0 : (build_vehicle_market_json fx v all t5 t1).stats.sample_size_1y
      = (filter_last_n_years all 1 t1).countP
          (fun s => (convert_to_usd fx s.price s.currency).isSome) := by
    rw [build_sample_size_eq, length_filterMap_eq_countP]
  refine ⟨h0, ?_, ?_⟩
  · rw [h0]
    exact List.countP_le_length _
  · rw [h0]
    exact List.countP_eq_length

/-- Witness for C6 at a concrete input on which every conversion
succeeds: the sample size attains the window size. -/
theorem sample_size_bound_witness :
    (build_vehicle_market_json fxId vq [rW] day0 day0).stats.sample_size_1y
      = (filter_last_n_years [rW] 1 day0).length :=
  (sample_size_bound fxId vq [rW] day0 day0).2.2.mpr (by decide)

/-- Claim C4: conversion-failure tolerance.  Every 5-year-window record
is published in sales_5y (enriched in place), a record whose conversion
failed is published with price_usd absent, the sample size counts only
successful 1-year conversions, the average is computed only from the
successful conversions, and when there is no successful 1-year
conversion (in particular when the window is empty) the average is 0
and the sample size is 0.  All operations involved are total functions,
so payload construction cannot fail on a conversion failure. -/
theorem conversion_failure_tolerant (fx : String → ℚ → Option ℚ) (v : VehicleQuery)
    (all : List SaleRecord) (t5 t1 : Nat) :
    (build_vehicle_market_json fx v all t5 t1).sales_5y
        = (filter_last_n_years all 5 t5).map (enrichSale fx) ∧
    (∀ s ∈ filter_last_n_years all 5 t5, convert_to_usd fx s.price s.currency = none →
        enrichSale fx s ∈ (build_vehicle_market_json fx v all t5 t1).sales_5y ∧
        (enrichSale fx s).price_usd = none) ∧
    (build_vehicle_market_json fx v all t5 t1).stats.sample_size_1y
        = (filter_last_n_years all 1 t1).countP
            (fun s => (convert_to_usd fx s.price s.currency).isSome) ∧
    (build_vehicle_market_json fx v all t5 t1).stats.avg_price_1y_usd
        = (if ((filter_last_n_years all 1 t1).filterMap fun s => convert_to_usd fx s.price s.currency).isEmpty
           then 0
           else ((filter_last_n_years all 1 t1).filterMap fun s => convert_to_usd fx s.price s.currency).sum /
                ((((filter_last_n_years all 1 t1).filterMap fun s => convert_to_usd fx s.price s.currency).length : ℚ))) ∧
    (((filter_last_n_years all 1 t1).filterMap fun s => convert_to_usd fx s.price s.currency) = [] →
        (build_vehicle_market_json fx v all t5 t1).stats.avg_price_1y_usd = 0 ∧
        (build_vehicle_market_json fx v all t5 t1).stats.sample_size_1y = 0) := by
  refine ⟨build_sales_5y_eq fx v all t5 t1, ?_, ?_, build_avg_eq fx v all t5 t1, ?_⟩
  · intro s hs hconv
    constructor
    · rw [build_sales_5y_eq]
      exact List.mem_map_of_mem _ hs
    · simp [enrichSale, hconv]
  · rw [build_sample_size_eq, length_filterMap_eq_countP]
  · intro hnil
    constructor
    · rw [build_avg_eq, hnil]
      simp
    · rw [build_sample_size_eq, hnil]
      rfl

/-- Witness for C4 at the failing-euro scenario of the specification:
the euro record is published with an absent converted price, and both
1-year statistics are zero. -/
theorem conversion_failure_tolerant_witness :
    (enrichSale fxNone rEur ∈ (build_vehicle_market_json fxNone vq [rEur] day0 day0).sales_5y ∧
      (enrichSale fxNone rEur).price_usd = none) ∧
    ((build_vehicle_market_json fxNone vq [rEur] day0 day0).stats.avg_price_1y_usd = 0 ∧
      (build_vehicle_market_json fxNone vq [rEur] day0 day0).stats.sample_size_1y = 0) :=
  ⟨(conversion_failure_tolerant fxNone vq [rEur] day0 day0).2.1 rEur (by decide) (by decide),
   (conversion_failure_tolerant fxNone vq [rEur] day0 day0).2.2.2.2 (by decide)⟩

/-- Insertion preserves length. -/
theorem length_sortedInsertDesc (e : EnrichedSale) (l : List EnrichedSale) :
    (sortedInsertDesc e l).length = l.length + 1 := by
  induction l with
  | nil => rfl
  | cons y ys ih =>
    rw [sortedInsertDesc]
    split
    · simp [ih]
    · simp

/-- The stable descending sort preserves length. -/
theorem length_sortDescBySaleDate (l : List EnrichedSale) :
    (sortDescBySaleDate l).length = l.length := by
  induction l with
  | nil => rfl
  | cons x xs ih =>
    rw [sortDescBySaleDate, length_sortedInsertDesc, ih, List.length_cons]

/-- The head of the stable descending sort is a member of the list, its
date is greatest, and it is the first element of the list carrying that
date: the tie-break keeps the first-encountered entry. -/
theorem sortDesc_head_firstMax (l : List EnrichedSale) :
    ∀ h : EnrichedSale, (sortDescBySaleDate l).head? = some h →
      h ∈ l ∧ (∀ t ∈ l, t.sale_date ≤ h.sale_date) ∧
      l.find? (fun t => decide (t.sale_date = h.sale_date)) = some h := by
  induction l with
  | nil => intro h hh; simp [sortDescBySaleDate] at hh
  | cons x xs ih =>
    intro h hh
    rw [sortDescBySaleDate] at hh
    cases hsort : sortDescBySaleDate xs with
    | nil =>
      have hxs : xs = [] := by
        have hlen := length_sortDescBySaleDate xs
        rw [hsort] at hlen
        exact List.length_eq_zero.mp hlen.symm
      subst hxs
      rw [hsort] at hh
      rw [sortedInsertDesc] at hh
      simp only [List.head?_cons, Option.some.injEq] at hh
      subst hh
      refine ⟨List.mem_singleton_self _, ?_, ?_⟩
      · intro t ht
        rw [List.mem_singleton] at ht
        subst ht
        exact le_refl _
      · rw [List.find?_cons_of_pos _ (by simp)]
    | cons h0 rest =>
      rw [hsort] at hh
      rw [sortedInsertDesc] at hh
      by_cases hlt : x.sale_date < h0.sale_date
      · rw [if_pos hlt] at hh
        simp only [List.head?_cons, Option.some.injEq] at hh
        subst hh
        obtain ⟨hmem, hmax, hfind⟩ := ih h0 (by rw [hsort]; rfl)
        refine ⟨List.mem_cons_of_mem _ hmem, ?_, ?_⟩
        · intro t ht
          rcases List.mem_cons.mp ht with rfl | ht2
          · exact le_of_lt hlt
          · exact hmax t ht2
        · have hne : x.sale_date ≠ h0.sale_date := ne_of_lt hlt
          rw [List.find?_cons_of_neg _ (by simp [hne]), hfind]
      · rw [if_neg hlt] at hh
        simp only [List.head?_cons, Option.some.injEq] at hh
        subst hh
        have hle : h0.sale_date ≤ x.sale_date := not_lt.mp hlt
        obtain ⟨hmem0, hmax0, hfind0⟩ := ih h0 (by rw [hsort]; rfl)
        refine ⟨List.mem_cons_self _ _, ?_, ?_⟩
        · intro t ht
          rcases List.mem_cons.mp ht with rfl | ht2
          · exact le_refl _
          · exact le_trans (hmax0 t ht2) hle
        · rw [List.find?_cons_of_pos _ (by simp)]

/-- Claim C3: last-sale selection.  When the published sales_5y is
empty, both last-sale fields are absent.  When it is non-empty, there
is an entry of sales_5y whose ISO date string is greatest, which is the
first entry of sales_5y carrying that date (ties broken in favour of
the first-encountered entry), and the published last_sale_date is its
date while last_sale_price_usd is its possibly-absent converted price,
used as-is. -/
theorem last_sale_selection (fx : String → ℚ → Option ℚ) (v : VehicleQuery)
    (all : List SaleRecord) (t5 t1 : Nat) :
    ((build_vehicle_market_json fx v all t5 t1).sales_5y = [] →
      (build_vehicle_market_json fx v all t5 t1).stats.last_sale_date = none ∧
      (build_vehicle_market_json fx v all t5 t1).stats.last_sale_price_usd = none) ∧
    ((build_vehicle_market_json fx v all t5 t1).sales_5y ≠ [] →
      ∃ h, h ∈ (build_vehicle_market_json fx v all t5 t1).sales_5y ∧
        (∀ t ∈ (build_vehicle_market_json fx v all t5 t1).sales_5y,
          t.sale_date ≤ h.sale_date) ∧
        ((build_vehicle_market_json fx v all t5 t1).sales_5y).find?
            (fun t => decide (t.sale_date = h.sale_date)) = some h ∧
        (build_vehicle_market_json fx v all t5 t1).stats.last_sale_date = some h.sale_date ∧
        (build_vehicle_market_json fx v all t5 t1).stats.last_sale_price_usd = h.price_usd) := by
  constructor
  · intro hempty
    rw [build_sales_5y_eq] at hempty
    rw [build_last_date_eq, build_last_price_eq, hempty]
    constructor <;> rfl
  · intro hne
    rw [build_sales_5y_eq] at hne
    have hlen : (sortDescBySaleDate ((filter_last_n_years all 5 t5).map (enrichSale fx))).length ≠ 0 := by
      rw [length_sortDescBySaleDate]
      intro h0
      exact hne (List.length_eq_zero.mp h0)
    cases hsort : sortDescBySaleDate ((filter_last_n_years all 5 t5).map (enrichSale fx)) with
    | nil => exact absurd (by rw [hsort]; rfl) hlen
    | cons h rest =>
      obtain ⟨hmem, hmax, hfind⟩ :=
        sortDesc_head_firstMax ((filter_last_n_years all 5 t5).map (enrichSale fx)) h
          (by rw [hsort]; rfl)
      refine ⟨h, ?_, ?_, ?_, ?_, ?_⟩
      · rw [build_sales_5y_eq]
        exact hmem
      · intro t ht
        rw [build_sales_5y_eq] at ht
        exact hmax t ht
      · rw [build_sales_5y_eq]
        exact hfind
      · rw [build_last_date_eq, hsort]
        rfl
      · rw [build_last_price_eq, hsort]
        rfl

/-- Witness for C3 at the three-date example of the specification: the
published last sale exists and satisfies the selection properties. -/
theorem last_sale_selection_witness :
    ∃ h, h ∈ (build_vehicle_market_json fxId vq [s31, s32, s33] day0 day0).sales_5y ∧
      (∀ t ∈ (build_vehicle_market_json fxId vq [s31, s32, s33] day0 day0).sales_5y,
        t.sale_date ≤ h.sale_date) ∧
      ((build_vehicle_market_json fxId vq [s31, s32, s33] day0 day0).sales_5y).find?
          (fun t => decide (t.sale_date = h.sale_date)) = some h ∧
      (build_vehicle_market_json fxId vq [s31, s32, s33] day0 day0).stats.last_sale_date = some h.sale_date ∧
      (build_vehicle_market_json fxId vq [s31, s32, s33] day0 day0).stats.last_sale_price_usd = h.price_usd :=
  (last_sale_selection fxId vq [s31, s32, s33] day0 day0).2 (by decide)
